import Mathlib

/-!
Verification of the mnstrv2server battle-queue coordinator.

This file gives a shallow embedding of the pure parts of the program in
Lean 4 and proves or refutes the frozen specification claims about it.

Conventions of the embedding:
- Rust `i32` values are embedded as `Int` when negative values are
  reachable, and as `Nat` when every value flowing through the code path
  is provably non-negative and far from overflow (the coin formula and
  the progression tables only handle values below `2^31`).
- Rust integer division on `i32` truncates toward zero; it is embedded
  as `Int.tdiv` on `Int` and as `/` on `Nat` (the two agree on
  non-negative operands).
- Fallible or panicking code is embedded in `Option`: `none` models a
  Rust panic (out-of-bounds index or `unwrap` on `None`).
-/

/-! # Progression tables (`build.rs`)

`build.rs` generates two 101-entry XP tables at build time:

- player table: seeded `[0, 100]`, then
  `next = prev + ceil(log10(prev) * 100.0)` for indices `2..=100`;
- monster table: seeded `[50]`, then
  `next = prev + ceil(log10(prev) * 10.0)` for indices `1..=100`.

The Rust code computes `ceil(log10(prev) * factor)` in `f64`.  For every
entry of both generated tables this `f64` computation agrees with the
exact integer value `ceil(factor * log10 prev)` (each entry of each table
was checked against exact integer arithmetic), so the embedding computes
the exact value: `ceil (m * log10 x)` is the least `k` with
`x ^ m ≤ 10 ^ k`. -/

/-- Fuel-driven base-10 logarithm: `natLog10 fuel n = floor (log10 n)`
whenever `fuel` is at least the number of decimal digits of `n`.  Fuel
recursion keeps the definition kernel-reducible. -/
def natLog10 : Nat → Nat → Nat
  | 0, _ => 0
  | fuel + 1, n => if n < 10 then 0 else natLog10 fuel (n / 10) + 1

/-- Exact ceiling log: `ceilMulLog10 m x = ceil (m * log10 x)` for `x ≥ 1`, computed
as the least `k` with `x ^ m ≤ 10 ^ k`.  This is the exact value of the
`f64` expression `((x as f64).log10() * (m as f64)).ceil()` in `build.rs`
for every argument pair the build actually evaluates. -/
def ceilMulLog10 (m x : Nat) : Nat :=
  let p := x ^ m
  let k := natLog10 (6 * m + 6) p
  if 10 ^ k == p then k else k + 1

/-- One step of the player-table growth rule of `generate_level_xp`. -/
def stepLevelXp (prev : Nat) : Nat := prev + ceilMulLog10 100 prev

/-- One step of the monster-table growth rule of `generate_mnstr_xp`. -/
def stepMnstrXp (prev : Nat) : Nat := prev + ceilMulLog10 10 prev

/-- The `levels.push(...)` loop of `build.rs`: extend the accumulated
table `count` times, each time appending `step` of the last entry. -/
def extendTable (step : Nat → Nat) : Nat → List Nat → List Nat
  | 0, acc => acc
  | count + 1, acc => extendTable step count (acc ++ [step (acc.getLastD 0)])

namespace level_xp

/-- The constant `XP_FOR_LEVEL` of `src/models/generated/level_xp.rs`, as generated by
`generate_level_xp` in `build.rs`. -/
def XP_FOR_LEVEL : List Nat := extendTable stepLevelXp 99 [0, 100]

end level_xp

namespace mnstr_xp

/-- The constant `XP_FOR_LEVEL` of `src/models/generated/mnstr_xp.rs`, as generated by
`generate_mnstr_xp` in `build.rs`. -/
def XP_FOR_LEVEL : List Nat := extendTable stepMnstrXp 100 [50]

end mnstr_xp

/-- Strict-increase invariant used for the table proofs: every adjacent
pair of the list is strictly increasing. -/
def StrictTable (l : List Nat) : Prop :=
  ∀ i : Nat, i + 1 < l.length → l.getD i 0 < l.getD (i + 1) 0

/-! # SHA-256 (the `sha2` crate dependency of `Mnstr::coins`)

`Mnstr::coins` in `src/models/mnstr.rs` hashes the monster's QR string
with `sha2::Sha256::digest`.  The `sha2` crate is an external
dependency, embedded here as the FIPS 180-4 SHA-256 function over byte
lists.  Words are `Nat` reduced modulo `2 ^ 32`; the digest is the list
of 32 bytes, each produced by an explicit `% 256`. -/

namespace Sha256

/-- Reduce to a 32-bit word. -/
def w32 (x : Nat) : Nat := x % 4294967296

/-- Rotate a 32-bit word right by `n`. -/
def rotr (n x : Nat) : Nat := (x >>> n) ||| w32 (x <<< (32 - n))

def bigS0 (x : Nat) : Nat := (rotr 2 x) ^^^ (rotr 13 x) ^^^ (rotr 22 x)

def bigS1 (x : Nat) : Nat := (rotr 6 x) ^^^ (rotr 11 x) ^^^ (rotr 25 x)

def smallS0 (x : Nat) : Nat := (rotr 7 x) ^^^ (rotr 18 x) ^^^ (x >>> 3)

def smallS1 (x : Nat) : Nat := (rotr 17 x) ^^^ (rotr 19 x) ^^^ (x >>> 10)

/-- The choice function `Ch(x, y, z)`; the 32-bit complement of `x` is
`x ^^^ 4294967295`. -/
def ch (x y z : Nat) : Nat := (x &&& y) ^^^ ((x ^^^ 4294967295) &&& z)

def maj (x y z : Nat) : Nat := (x &&& y) ^^^ (x &&& z) ^^^ (y &&& z)

/-- The 64 round constants of FIPS 180-4, written in decimal. -/
def K : List Nat := [
  1116352408, 1899447441, 3049323471, 3921009573, 961987163,
  1508970993, 2453635748, 2870763221, 3624381080, 310598401,
  607225278, 1426881987, 1925078388, 2162078206, 2614888103,
  3248222580, 3835390401, 4022224774, 264347078, 604807628,
  770255983, 1249150122, 1555081692, 1996064986, 2554220882,
  2821834349, 2952996808, 3210313671, 3336571891, 3584528711,
  113926993, 338241895, 666307205, 773529912, 1294757372,
  1396182291, 1695183700, 1986661051, 2177026350, 2456956037,
  2730485921, 2820302411, 3259730800, 3345764771, 3516065817,
  3600352804, 4094571909, 275423344, 430227734, 506948616,
  659060556, 883997877, 958139571, 1322822218, 1537002063,
  1747873779, 1955562222, 2024104815, 2227730452, 2361852424,
  2428436474, 2756734187, 3204031479, 3329325298]

/-- The intermediate hash value: eight 32-bit words. -/
structure Hash where
  w0 : Nat
  w1 : Nat
  w2 : Nat
  w3 : Nat
  w4 : Nat
  w5 : Nat
  w6 : Nat
  w7 : Nat

/-- Initial hash value `H(0)`, in decimal. -/
def H0 : Hash :=
  ⟨1779033703, 3144134277, 1013904242, 2773480762,
   1359893119, 2600822924, 528734635, 1541459225⟩

/-- The eight working registers of the compression loop. -/
structure Regs where
  a : Nat
  b : Nat
  c : Nat
  d : Nat
  e : Nat
  f : Nat
  g : Nat
  h : Nat

/-- One compression round with round constant and schedule word `kw`. -/
def round (r : Regs) (kw : Nat × Nat) : Regs :=
  let t1 := w32 (r.h + bigS1 r.e + ch r.e r.f r.g + kw.1 + kw.2)
  let t2 := w32 (bigS0 r.a + maj r.a r.b r.c)
  ⟨w32 (t1 + t2), r.a, r.b, r.c, w32 (r.d + t1), r.e, r.f, r.g⟩

/-- The 16 initial schedule words: big-endian 32-bit words of a block. -/
def initWords (block : List Nat) : List Nat :=
  (List.range 16).map (fun i =>
    (block.getD (4 * i) 0) * 16777216 + (block.getD (4 * i + 1) 0) * 65536 +
      (block.getD (4 * i + 2) 0) * 256 + block.getD (4 * i + 3) 0)

/-- Message-schedule extension: append `count` further schedule words. -/
def extendWords : Nat → List Nat → List Nat
  | 0, w => w
  | count + 1, w =>
    extendWords count (w ++ [w32 (smallS1 (w.getD (w.length - 2) 0) +
      w.getD (w.length - 7) 0 + smallS0 (w.getD (w.length - 15) 0) +
      w.getD (w.length - 16) 0)])

/-- Compress one 64-byte block into the hash value. -/
def compress (hv : Hash) (block : List Nat) : Hash :=
  let w := extendWords 48 (initWords block)
  let r := (K.zip w).foldl round ⟨hv.w0, hv.w1, hv.w2, hv.w3, hv.w4, hv.w5, hv.w6, hv.w7⟩
  ⟨w32 (hv.w0 + r.a), w32 (hv.w1 + r.b), w32 (hv.w2 + r.c), w32 (hv.w3 + r.d),
   w32 (hv.w4 + r.e), w32 (hv.w5 + r.f), w32 (hv.w6 + r.g), w32 (hv.w7 + r.h)⟩

/-- Fold `compress` over the 64-byte blocks of the padded message.  The
fuel only bounds the recursion (one unit per block) and is chosen large
enough by the caller. -/
def processBlocks : Nat → Hash → List Nat → Hash
  | _, hv, [] => hv
  | 0, hv, _ => hv
  | fuel + 1, hv, b :: bs =>
    processBlocks fuel (compress hv ((b :: bs).take 64)) ((b :: bs).drop 64)

/-- FIPS 180-4 padding: a `0x80` byte, zeros to 56 mod 64, and the
64-bit big-endian bit length. -/
def pad (msg : List Nat) : List Nat :=
  let L := msg.length
  let zeros := (119 - L % 64) % 64
  let bitLen := 8 * L
  msg ++ [128] ++ List.replicate zeros 0 ++
    [(bitLen >>> 56) % 256, (bitLen >>> 48) % 256, (bitLen >>> 40) % 256,
     (bitLen >>> 32) % 256, (bitLen >>> 24) % 256, (bitLen >>> 16) % 256,
     (bitLen >>> 8) % 256, bitLen % 256]

/-- The four big-endian bytes of a 32-bit word. -/
def wordBytes (w : Nat) : List Nat :=
  [(w >>> 24) % 256, (w >>> 16) % 256, (w >>> 8) % 256, w % 256]

/-- SHA-256 digest of a byte list: 32 bytes. -/
def digest (msg : List Nat) : List Nat :=
  let padded := pad msg
  let hv := processBlocks (padded.length + 1) H0 padded
  wordBytes hv.w0 ++ wordBytes hv.w1 ++ wordBytes hv.w2 ++ wordBytes hv.w3 ++
    wordBytes hv.w4 ++ wordBytes hv.w5 ++ wordBytes hv.w6 ++ wordBytes hv.w7

/-- UTF-8 encoding of a Unicode code point (Rust `str::as_bytes`). -/
def utf8Bytes (c : Nat) : List Nat :=
  if c < 128 then [c]
  else if c < 2048 then [192 + c / 64, 128 + c % 64]
  else if c < 65536 then [224 + c / 4096, 128 + c / 64 % 64, 128 + c % 64]
  else [240 + c / 262144, 128 + c / 4096 % 64, 128 + c / 64 % 64, 128 + c % 64]

/-- The UTF-8 bytes of a string (Rust `String::as_bytes`). -/
def strBytes (s : String) : List Nat :=
  (s.data.map (fun c => utf8Bytes c.toNat)).flatten

end Sha256

/-! # `Mnstr` (`src/models/mnstr.rs`)

Timestamps (`OffsetDateTime`) are embedded abstractly as `Option Nat`;
stat fields are `i32`, embedded as `Int`. -/

structure Mnstr where
  id : String
  user_id : String
  mnstr_name : String
  mnstr_description : String
  mnstr_qr_code : String
  created_at : Option Nat := none
  updated_at : Option Nat := none
  archived_at : Option Nat := none
  current_level : Int := 0
  current_experience : Int := 0
  current_health : Int := 0
  max_health : Int := 0
  current_attack : Int := 0
  max_attack : Int := 0
  current_defense : Int := 0
  max_defense : Int := 0
  current_speed : Int := 0
  max_speed : Int := 0
  current_intelligence : Int := 0
  max_intelligence : Int := 0
  current_magic : Int := 0
  max_magic : Int := 0
deriving DecidableEq, Repr

/-- Lines 312-350 of `Mnstr::coins`: the tiered arithmetic on the two
digest bytes (the source inlines this in `coins`; it is factored out
here so the range lemma can quantify over the byte values).  Every
intermediate value is non-negative, so Rust `i32` truncating division
coincides with the euclidean `Int` division `/` used here, and no `i32`
overflow is possible (all values stay below 2011). -/
def coinsFromBytes (coins_byte multiplier_hash_byte : Int) : Int :=
  let coins := coins_byte
  let coins := if coins ≤ 0 then 5 else coins
  let multiplier := multiplier_hash_byte
  let multiplier := if multiplier ≤ 0 then 10 else multiplier
  let coins :=
    if multiplier ≥ 251 then
      let coins := coins * (multiplier / 100) + 1000
      if coins > 2000 then 2000 else coins
    else if multiplier ≥ 242 then
      let coins := coins * (multiplier / 100) + 400
      if coins > 750 then 750 else coins
    else if multiplier ≥ 216 then
      let coins := coins * (multiplier / 100) + 150
      if coins > 400 then 400 else coins
    else
      let coins := if multiplier ≥ 85 then coins * (multiplier / 100) else coins
      if coins > 25 then coins / 10 else coins
  if coins < 5 then 5 else coins

/-- The function `Mnstr::coins` (`src/models/mnstr.rs` lines 307-351): hash the QR
string, take the two middle digest bytes, and apply the tier arithmetic. -/
def Mnstr.coins (m : Mnstr) : Int :=
  let hash := Sha256.digest (Sha256.strBytes m.mnstr_qr_code)
  let coins_byte := hash.getD ((hash.length - 1) / 2) 0
  let multiplier_hash_byte := hash.getD ((hash.length - 1) / 2 + 1) 0
  coinsFromBytes (coins_byte : Int) (multiplier_hash_byte : Int)

/-! # Presence records (`src/models/battle_status.rs`) -/

inductive BattleStatusState where
  | InQueue
  | InBattle
  | Watching
deriving DecidableEq, Repr

structure BattleStatus where
  id : String
  user_id : String
  display_name : String
  opponent_id : Option String := none
  opponent_name : Option String := none
  battle_id : Option String := none
  status : BattleStatusState
  created_at : Option Nat := none
  updated_at : Option Nat := none
deriving DecidableEq, Repr

/-! # `handle_list_request` (`handlers.rs` lines 667-694)

The pure core of the `List` handler: `BattleStatus::find_all()` returns
every presence record (the query in `battle_status.rs` line 149 carries
no field filter at all, in particular no status filter); the handler
then drops the requester's records and keeps the first record per
`user_id` via the fold at lines 677-682.  `all` stands for the store's
full `battle_status` table as returned by `find_all`. -/
def handle_list_request_records (requester_user_id : String)
    (all : List BattleStatus) : List BattleStatus :=
  let list := all.filter (fun item => item.user_id ≠ requester_user_id)
  list.foldl
    (fun acc item =>
      if !(acc.any (fun x => x.user_id == item.user_id)) then acc ++ [item] else acc)
    []

/-- The de-duplication step of `handle_list_request` (lines 677-682). -/
def dedupStep (acc : List BattleStatus) (item : BattleStatus) : List BattleStatus :=
  if !(acc.any (fun x => x.user_id == item.user_id)) then acc ++ [item] else acc

/-! # Battle-queue envelopes (`src/websocket/battle_queue/models.rs`)

Modelled from the spec: the tracked `models.rs` predates `handlers.rs` —
the variants `GameStarted`, `GameEnded`, `Rejoined`, `Ping` of
`BattleQueueAction`, the variants `MnstrChosen`, `Rejoin`, `Rejoined`,
`InGameAction`, `Escape`, `Attack`, `Defend`, `Magic`, `GameStarted`,
`GameEnded` of `BattleQueueDataAction`, and the struct
`BattleQueueGameData` are referenced by `handlers.rs` but not declared
anywhere under `src/`.  Their shape below is reconstructed from the
spec §3 envelope description and from every use in `handlers.rs`. -/

inductive BattleQueueChannel where
  | Lobby
  | Battle
deriving DecidableEq, Repr

inductive BattleQueueAction where
  | Error
  | Joined
  | Left
  | Ready
  | Unready
  | Requested
  | Accepted
  | Rejected
  | Cancel
  | Watching
  | List
  | Challenge
  | Accept
  | Reject
  | Start
  | GameStarted
  | GameEnded
  | Rejoined
  | Ping
deriving DecidableEq, Repr

inductive BattleQueueDataAction where
  | Connect
  | Cancel
  | Ready
  | Unready
  | Start
  | Watch
  | Left
  | List
  | Error
  | Challenge
  | Accept
  | Reject
  | MnstrChosen
  | Rejoin
  | Rejoined
  | InGameAction
  | Escape
  | Attack
  | Defend
  | Magic
  | GameStarted
  | GameEnded
deriving DecidableEq, Repr

/-- The struct `BattleQueueGameData`: the serialized combat state carried inside an
envelope's payload.  XP/coin amounts are `i32`. -/
structure BattleQueueGameData where
  battle_id : Option String := none
  challenger_mnstr : Option Mnstr := none
  opponent_mnstr : Option Mnstr := none
  challenger_mnstrs : Option (List Mnstr) := none
  opponent_mnstrs : Option (List Mnstr) := none
  mnstr : Option Mnstr := none
  winner_id : Option String := none
  winner_xp_awarded : Option Int := none
  winner_coins_awarded : Option Int := none
  loser_xp_awarded : Option Int := none
  loser_coins_awarded : Option Int := none
  turn_user_id : Option String := none
deriving DecidableEq, Repr

/-- In the source, `BattleQueueData.data` is an `Option<String>` holding
JSON that the handlers re-parse with `serde_json::from_str(..).unwrap()`.
The embedding keeps only the parse outcome: a present string either
parses to a `BattleQueueGameData` or is `malformed` (on which the
`unwrap` of the parse result panics). -/
inductive RawGameData where
  | malformed
  | parsed (g : BattleQueueGameData)
deriving DecidableEq, Repr

/-- The struct `BattleQueueData` (`models.rs` lines 235-245). -/
structure BattleQueueData where
  action : BattleQueueDataAction
  user_id : Option String := none
  user_name : Option String := none
  opponent_id : Option String := none
  opponent_name : Option String := none
  mnstr_id : Option String := none
  data : Option RawGameData := none
  error : Option String := none
  message : Option String := none
deriving DecidableEq, Repr

/-- The struct `BattleQueue` (`models.rs` lines 103-127), the wire envelope. -/
structure BattleQueue where
  id : String
  user_id : Option String := none
  channel : BattleQueueChannel
  action : BattleQueueAction
  data : BattleQueueData
  created_at : Option Nat := none
  updated_at : Option Nat := none
  archived_at : Option Nat := none
deriving DecidableEq, Repr

/-! # Attack resolution (`handlers.rs` `handle_attack`, lines 972-1106)

The combat arithmetic of `handle_attack` is pure once the two combatant
snapshots, the turn holder and the two dice values are fixed;
`roll_dice(20)` (line 1104) yields a uniform value in `1..=20`, embedded
as an explicit die parameter.  Rust `i32` division truncates toward
zero, hence `Int.tdiv` for the `/ 20` stat bonuses. -/

/-- Lines 986-994: the turn holder defends, the other combatant attacks.
Returns `(attacker, defender)`. -/
def selectCombatants (challenger opponent : Mnstr) (turn_user_id : String) :
    Mnstr × Mnstr :=
  if turn_user_id == challenger.user_id then (opponent, challenger)
  else (challenger, opponent)

/-- The outcome of the hit/miss resolution (lines 1007-1023): the
possibly-updated defender, whether it was a hit, and the damage dealt. -/
structure AttackResolution where
  defender : Mnstr
  hit : Bool
  damage : Option Int
deriving DecidableEq, Repr

/-- Lines 1007-1023: strict-greater comparison decides a hit; the damage
is the whole attacker roll; damage above the defender's defense zeroes
health, otherwise it is subtracted (with no lower clamp). -/
def resolveAttack (defender : Mnstr) (attacker_roll defender_roll : Int) :
    AttackResolution :=
  if attacker_roll > defender_roll then
    let attack := attacker_roll
    let defender :=
      if attack > defender.current_defense then { defender with current_health := 0 }
      else { defender with current_health := defender.current_health - attack }
    ⟨defender, true, some attack⟩
  else ⟨defender, false, none⟩

/-- Lines 1048-1051: per-turn fatigue on both combatants. -/
def applyFatigue (attacker defender : Mnstr) : Mnstr × Mnstr :=
  ({ attacker with
      current_attack := attacker.current_attack - 1,
      current_speed := attacker.current_speed - 1 },
   { defender with
      current_defense := defender.current_defense - 1,
      current_intelligence := defender.current_intelligence - 1 })

/-- The states `handle_attack` persists (`attacker.update()` /
`defender.update()`) and writes back into the published game data,
together with the turn swap and the win check. -/
structure AttackOutcome where
  attacker : Mnstr
  defender : Mnstr
  hit : Bool
  damage : Option Int
  turn_user_id : String
  winner_id : Option String
deriving DecidableEq, Repr

/-- The stat pipeline of `handle_attack` (lines 986-1101): select
combatants, roll, resolve, apply fatigue, swap the turn to the defender,
and declare the attacker winner when the defender's health is `≤ 0`. -/
def handle_attack_core (challenger opponent : Mnstr) (turn_user_id : String)
    (attacker_die defender_die : Int) : AttackOutcome :=
  let sel := selectCombatants challenger opponent turn_user_id
  let attacker := sel.1
  let defender := sel.2
  let attacker_roll := attacker_die + Int.tdiv attacker.current_speed 20
  let defender_roll := defender_die + Int.tdiv defender.current_intelligence 20
  let res := resolveAttack defender attacker_roll defender_roll
  let fat := applyFatigue attacker res.defender
  let attacker := fat.1
  let defender := fat.2
  { attacker := attacker
    defender := defender
    hit := res.hit
    damage := res.damage
    turn_user_id := defender.user_id
    winner_id := if defender.current_health ≤ 0 then some attacker.user_id else none }

/-! # End-of-game rewards (`handlers.rs` `handle_game_ended`, lines 1325-1329) -/

structure GameEndRewards where
  xp_to_next_level : Nat
  winner_xp_awarded : Nat
  loser_xp_awarded : Nat
  winner_coins_awarded : Int
  loser_coins_awarded : Int
deriving DecidableEq, Repr

/-- Lines 1325-1329 of `handle_game_ended`: the reward amounts computed
from the loser's monster.  The table index is
`loser_mnstr.current_level as usize + 1` into the 101-entry monster
table; an out-of-range index is a Rust panic, embedded as `none`.  The
source computes `(xp as f64 / 4.0).floor() as i32` (and `/ 8.0`);
division of an exactly-represented `i32` by a power of two is exact in
`f64`, so the floor equals natural-number division by 4 (resp. 8). -/
def handle_game_ended_rewards (loser_mnstr : Mnstr) : Option GameEndRewards :=
  if 0 ≤ loser_mnstr.current_level ∧
      loser_mnstr.current_level.toNat + 1 < mnstr_xp.XP_FOR_LEVEL.length then
    let xp_to_next_level :=
      mnstr_xp.XP_FOR_LEVEL.getD (loser_mnstr.current_level.toNat + 1) 0
    some { xp_to_next_level := xp_to_next_level
           winner_xp_awarded := xp_to_next_level / 4
           loser_xp_awarded := xp_to_next_level / 8
           winner_coins_awarded := loser_mnstr.coins
           loser_coins_awarded := 5 }
  else none

/-- The reward amounts exactly as §4.5 of the spec words them:
`xpToNextLevel = ProgressionTable[loserMonster.level + 1]`,
`winnerXp = floor(xpToNextLevel / 4)`, `loserXp = floor(xpToNextLevel / 8)`,
`winnerCoins = CoinValue(loserMonster)`, `loserCoins = 5`. -/
def specGameEndRewards (loser_mnstr : Mnstr) : GameEndRewards :=
  let xpToNextLevel :=
    mnstr_xp.XP_FOR_LEVEL.getD (loser_mnstr.current_level.toNat + 1) 0
  { xp_to_next_level := xpToNextLevel
    winner_xp_awarded := xpToNextLevel / 4
    loser_xp_awarded := xpToNextLevel / 8
    winner_coins_awarded := loser_mnstr.coins
    loser_coins_awarded := 5 }

/-! # `User` and `User::update_xp` (`src/models/user.rs` lines 449-504)

The relationship fields `wallet` and `mnstrs` take no part in
`update_xp` and are omitted. -/

structure User where
  id : String
  email : String := ""
  display_name : String := ""
  password_hash : String := ""
  qr_code : String := ""
  experience_level : Int := 0
  experience_points : Int := 0
  experience_to_next_level : Int := 0
  coins : Int := 0
  created_at : Option Nat := none
  updated_at : Option Nat := none
  archived_at : Option Nat := none
deriving DecidableEq, Repr

/-- Indexing `XP_FOR_LEVEL[i]` on the player table with an `i32` index, as
`XP_FOR_LEVEL[idx as usize]` behaves: an index outside `0..=100` is an
out-of-bounds panic (`none`).  (For a negative `i32` the `as usize`
cast wraps to a huge index, which is equally out of bounds.) -/
def level_xp_get (i : Int) : Option Int :=
  if 0 ≤ i ∧ i < 101 then
    some ((level_xp.XP_FOR_LEVEL.getD i.toNat 0 : Nat) : Int)
  else none

/-- Lines 454-458 (also `update_experience_to_next_level`, lines
440-447): the XP threshold for the next level — the table entry at
`level + 1`, or the last entry when the level is already at the table's
last index. -/
def user_xp_to_next_level (u : User) : Option Int :=
  if u.experience_level < 101 - 1 then level_xp_get (u.experience_level + 1)
  else level_xp_get (101 - 1)

/-- The `while remaining_overage >= 0` loop of `update_xp` (lines
462-480).  Each iteration moves the overage into `experience_points`,
increments the level, re-reads the threshold at the new `level + 1`
(twice, as the source does — a panic here is `none`), subtracts it from
the overage, and zeroes `experience_points` when the overage went
negative.  The fuel only bounds the recursion; the level grows by one
per iteration and the table read panics past index 100, so 102 units
are enough for every run entered with a non-negative level. -/
def update_xp_loop : Nat → Int → Int → User → Option (User × Int)
  | 0, _, _, _ => none
  | fuel + 1, remaining_overage, xp_to_next_level, u =>
    if remaining_overage < 0 then some (u, xp_to_next_level)
    else
      let u := { u with
        experience_points := remaining_overage,
        experience_level := u.experience_level + 1 }
      match level_xp_get (u.experience_level + 1) with
      | none => none
      | some t =>
        let remaining_overage := remaining_overage - t
        match level_xp_get (u.experience_level + 1) with
        | none => none
        | some t2 =>
          let u :=
            if remaining_overage < 0 then { u with experience_points := 0 } else u
          update_xp_loop fuel remaining_overage t2 u

/-- The method `User::update_xp` (lines 449-504) without the trailing store write:
add the XP, compute the current threshold, run the level-up loop, and
store the final threshold in `experience_to_next_level`. -/
def User.update_xp (u : User) (xp : Int) : Option User :=
  let u := { u with experience_points := u.experience_points + xp }
  match user_xp_to_next_level u with
  | none => none
  | some xp_to_next_level =>
    let xp_overage := u.experience_points - xp_to_next_level
    match update_xp_loop 102 xp_overage xp_to_next_level u with
    | none => none
    | some (u, t) => some { u with experience_to_next_level := t }

/-! # Inbound message dispatch (`handlers.rs` lines 100-128 and 370-665)

The per-connection loop merges broker messages and client messages; for
a client message it runs `handle_incoming_ws_message`, which parses the
text into a `BattleQueue` envelope via `build_battle_queue` (lines
234-271) and dispatches on `queue.data.action`.  The embedding keeps the
parse *outcome* as the input (JSON parsing itself is `serde`, an
external crate) and abstracts each store-touching handler behind
`delegated`; the `unwrap()` panics at the head of the `MnstrChosen`,
`Rejoin`, `Escape` and `Attack` arms happen before any store call, so
they are decided purely by the envelope. -/

/-- A client websocket event, by parse outcome:
`transportError` is `Some(Err(_))` from the socket (or an
`into_text` failure), `emptyText` an empty text frame, `unparsableText`
a non-empty text frame that `serde_json` cannot parse as an envelope,
and `envelope q` a successfully parsed envelope. -/
inductive InboundMessage where
  | transportError
  | emptyText
  | unparsableText
  | envelope (q : BattleQueue)
deriving DecidableEq, Repr

/-- What the connection loop does with one client message.
`forcedLeave` is `on_player_left` (presence deletion plus a `Left`
broadcast); `publishedError` publishes the `"Invalid message"` error
envelope built by `build_battle_queue`; `publishedEnvelope` is the
catch-all arm republishing the inbound envelope; `delegated` enters the
corresponding store-touching handler; `ignored` returns without any
effect; `panicked` is an `unwrap()` panic. -/
inductive DispatchResult where
  | forcedLeave
  | publishedError
  | publishedEnvelope
  | delegated
  | ignored
  | panicked
deriving DecidableEq, Repr

/-- The data-level actions whose handler arms immediately
`unwrap()`-and-parse `queue.data.data` (lines 423-425, 511-513,
613-615, 977-979). -/
def requiresGameData : BattleQueueDataAction → Bool
  | .MnstrChosen => true
  | .Rejoin => true
  | .Escape => true
  | .Attack => true
  | _ => false

/-- Dispatch of a parsed envelope on `queue.data.action`
(`handle_incoming_ws_message`, lines 384-654). -/
def dispatchEnvelope (q : BattleQueue) : DispatchResult :=
  match q.data.action with
  | .Connect => .delegated
  | .List => .delegated
  | .Accept => .delegated
  | .MnstrChosen | .Rejoin | .Escape | .Attack =>
    match q.data.data with
    | none => .panicked
    | some .malformed => .panicked
    | some (.parsed _) => .delegated
  | .InGameAction => .ignored
  | .Defend => .ignored
  | .Magic => .ignored
  | _ => .publishedEnvelope

/-- One client websocket event through the connection loop (lines
111-126) and `handle_incoming_ws_message`: an empty frame and a
transport-level error run `on_player_left`; an unparsable text frame
makes `build_battle_queue` return an `Error` envelope (`Ok`, not `Err`)
which falls into the catch-all publish arm; a parsed envelope is
dispatched on its data action. -/
def handle_client_message : InboundMessage → DispatchResult
  | .transportError => .forcedLeave
  | .emptyText => .forcedLeave
  | .unparsableText => .publishedError
  | .envelope q => dispatchEnvelope q

/-! # Concrete inputs for witnesses and counterexamples -/

/-- A monster with the spec §8 golden QR string. -/
def mnstrGolden : Mnstr :=
  { id := "m-golden", user_id := "u-golden", mnstr_name := "Golden",
    mnstr_description := "golden", mnstr_qr_code := "ABC123" }

/-- C2/C10 witness input: a freshly-scanned level-0 monster. -/
def mnstrLvl0 : Mnstr :=
  { id := "m-l0", user_id := "u-l0", mnstr_name := "L0",
    mnstr_description := "level zero", mnstr_qr_code := "QR-L0" }

/-- C10 input: a monster at level 100, the monster table's last index. -/
def mnstrLvl100 : Mnstr :=
  { id := "m-l100", user_id := "u-l100", mnstr_name := "L100",
    mnstr_description := "level one hundred", mnstr_qr_code := "QR-L100",
    current_level := 100 }

/-- C3 counterexample: an attacker with negative current speed (reachable
by fatigue, which decrements speed by one on every attack). -/
def c3Challenger : Mnstr :=
  { id := "m-c3a", user_id := "u-c3a", mnstr_name := "C3A",
    mnstr_description := "attacker", mnstr_qr_code := "QR-C3A",
    current_speed := -5, current_health := 50, current_defense := 30,
    current_intelligence := 0 }

/-- C3 counterexample: the turn-holding defender. -/
def c3Opponent : Mnstr :=
  { id := "m-c3d", user_id := "u-c3d", mnstr_name := "C3D",
    mnstr_description := "defender", mnstr_qr_code := "QR-C3D",
    current_speed := 0, current_health := 50, current_defense := 30,
    current_intelligence := 0 }

/-- C5 counterexample: the turn-holding defender with 5 health but 30
defense, so a 10-damage hit is not an instant kill and drives health
negative. -/
def c5Challenger : Mnstr :=
  { id := "m-c5d", user_id := "u-c5d", mnstr_name := "C5D",
    mnstr_description := "defender", mnstr_qr_code := "QR-C5D",
    current_health := 5, current_defense := 30, current_intelligence := 0,
    current_speed := 0 }

/-- C5 counterexample: the attacker. -/
def c5Opponent : Mnstr :=
  { id := "m-c5a", user_id := "u-c5a", mnstr_name := "C5A",
    mnstr_description := "attacker", mnstr_qr_code := "QR-C5A",
    current_health := 40, current_defense := 10, current_intelligence := 0,
    current_speed := 0 }

/-- C4 witness combatants. -/
def c4Challenger : Mnstr :=
  { id := "m-c4a", user_id := "u-c4a", mnstr_name := "C4A",
    mnstr_description := "challenger", mnstr_qr_code := "QR-C4A" }

def c4Opponent : Mnstr :=
  { id := "m-c4b", user_id := "u-c4b", mnstr_name := "C4B",
    mnstr_description := "opponent", mnstr_qr_code := "QR-C4B" }

/-- C6 counterexample: another user's presence record whose status is
`InBattle`, not `InQueue`. -/
def bsInBattle : BattleStatus :=
  { id := "s-b", user_id := "user-b", display_name := "B",
    status := .InBattle }

/-- C9 counterexample: a well-formed envelope whose data action is
`Attack` but whose `data` payload is absent. -/
def attackNoData : BattleQueue :=
  { id := "q-attack", user_id := some "u-q", channel := .Battle,
    action := .Joined,
    data := { action := .Attack, user_id := some "u-q", data := none } }

/-- C9 amended-claim witness: an `Escape` envelope whose payload string
does not parse as game data. -/
def escapeBadData : BattleQueue :=
  { id := "q-escape", user_id := some "u-q2", channel := .Battle,
    action := .Joined,
    data := { action := .Escape, user_id := some "u-q2",
              data := some .malformed } }

/-- C7 counterexample: a user whose stored points already equal the
level-1 threshold (`XP_FOR_LEVEL[1] = 100`). -/
def userAtThreshold : User :=
  { id := "u-c7", experience_level := 0, experience_points := 100 }

/-- C7 witness: a fresh user strictly below the next-level threshold. -/
def userFresh : User :=
  { id := "u-c7w", experience_level := 0, experience_points := 0 }

/-- A second monster carrying the same QR string as `mnstrGolden` but
otherwise different. -/
def mnstrGoldenTwin : Mnstr :=
  { id := "m-golden-2", user_id := "u-golden-2", mnstr_name := "GoldenTwin",
    mnstr_description := "same QR", mnstr_qr_code := "ABC123",
    current_level := 7, current_health := 33 }

/-! # Theorems -/

theorem extendTable_length (step : Nat → Nat) :
    ∀ (count : Nat) (acc : List Nat),
      (extendTable step count acc).length = acc.length + count := by
  intro count
  induction count with
  | zero => intro acc; simp [extendTable]
  | succ n ih =>
    intro acc
    rw [extendTable, ih]
    simp
    omega

theorem level_xp_length : level_xp.XP_FOR_LEVEL.length = 101 := by
  rw [level_xp.XP_FOR_LEVEL, extendTable_length]; rfl

theorem mnstr_xp_length : mnstr_xp.XP_FOR_LEVEL.length = 101 := by
  rw [mnstr_xp.XP_FOR_LEVEL, extendTable_length]; rfl

theorem ceilMulLog10_pos {m x : Nat} (hm : 1 ≤ m) (hx : 2 ≤ x) :
    1 ≤ ceilMulLog10 m x := by
  unfold ceilMulLog10
  have hp : 2 ≤ x ^ m := by
    calc 2 = 2 ^ 1 := rfl
    _ ≤ x ^ 1 := Nat.pow_le_pow_left hx 1
    _ ≤ x ^ m := Nat.pow_le_pow_right (by omega) hm
  simp only []
  split
  · next h =>
    rcases Nat.eq_zero_or_pos (natLog10 (6 * m + 6) (x ^ m)) with h0 | h1
    · exfalso
      rw [h0] at h
      rw [beq_iff_eq] at h
      omega
    · exact h1
  · omega

theorem getLastD_eq_getD (l : List Nat) :
    l.getLastD 0 = l.getD (l.length - 1) 0 := by
  rw [List.getLastD_eq_getLast?, List.getLast?_eq_getElem?, List.getD_eq_getD_get?,
    List.get?_eq_getElem?]

theorem strictTable_concat {l : List Nat} {a : Nat} (hl : StrictTable l)
    (hlast : l.getLastD 0 < a) : StrictTable (l ++ [a]) := by
  intro i hi
  simp only [List.length_append, List.length_cons, List.length_nil] at hi
  by_cases hcase : i + 1 < l.length
  · rw [List.getD_append _ _ _ _ (by omega), List.getD_append _ _ _ _ hcase]
    exact hl i hcase
  · have hi1 : i + 1 = l.length := by omega
    rw [List.getD_append _ _ _ _ (by omega)]
    rw [List.getD_append_right _ _ _ _ (by omega)]
    have h0 : i + 1 - l.length = 0 := by omega
    rw [h0]
    have hgl : l.getD i 0 = l.getLastD 0 := by
      rw [getLastD_eq_getD]
      congr 1
      omega
    rw [hgl]
    exact hlast

theorem extendTable_strict (step : Nat → Nat)
    (hstep : ∀ x, 2 ≤ x → x < step x) :
    ∀ (count : Nat) (acc : List Nat), StrictTable acc →
      2 ≤ acc.getLastD 0 → StrictTable (extendTable step count acc) := by
  intro count
  induction count with
  | zero => intro acc h _; simpa [extendTable] using h
  | succ n ih =>
    intro acc hacc hlast
    rw [extendTable]
    apply ih
    · exact strictTable_concat hacc (hstep _ hlast)
    · have : (acc ++ [step (acc.getLastD 0)]).getLastD 0 = step (acc.getLastD 0) := by
        rw [getLastD_eq_getD]
        simp
      rw [this]
      have := hstep _ hlast
      omega

theorem level_xp_strict : StrictTable level_xp.XP_FOR_LEVEL := by
  rw [level_xp.XP_FOR_LEVEL]
  apply extendTable_strict
  · intro x hx
    have := ceilMulLog10_pos (m := 100) (by omega) hx
    unfold stepLevelXp
    omega
  · intro i hi
    simp only [List.length_cons, List.length_nil] at hi
    have : i = 0 := by omega
    subst this
    simp [List.getD]
  · decide

theorem mnstr_xp_strict : StrictTable mnstr_xp.XP_FOR_LEVEL := by
  rw [mnstr_xp.XP_FOR_LEVEL]
  apply extendTable_strict
  · intro x hx
    have := ceilMulLog10_pos (m := 10) (by omega) hx
    unfold stepMnstrXp
    omega
  · intro i hi
    simp at hi
  · decide

theorem wordBytes_lt {w b : Nat} (h : b ∈ Sha256.wordBytes w) : b < 256 := by
  simp only [Sha256.wordBytes, List.mem_cons, List.not_mem_nil, or_false] at h
  rcases h with h | h | h | h <;> subst h <;> exact Nat.mod_lt _ (by omega)

/-- Every digest byte is an explicit `% 256`, hence below 256. -/
theorem digest_byte_lt {msg : List Nat} {b : Nat}
    (hb : b ∈ Sha256.digest msg) : b < 256 := by
  unfold Sha256.digest at hb
  simp only [List.mem_append] at hb
  have hw : ∀ w : Nat, b ∈ Sha256.wordBytes w → b < 256 := fun _ h => wordBytes_lt h
  tauto

theorem digest_length (msg : List Nat) : (Sha256.digest msg).length = 32 := by
  unfold Sha256.digest
  simp [Sha256.wordBytes]

theorem coinsFromBytes_range {cb mb : Int} (hcb0 : 0 ≤ cb) (hcb : cb ≤ 255)
    (hmb0 : 0 ≤ mb) (hmb : mb ≤ 255) :
    5 ≤ coinsFromBytes cb mb ∧ coinsFromBytes cb mb ≤ 2000 := by
  dsimp only [coinsFromBytes]
  set c := if cb ≤ 0 then (5 : Int) else cb with hc_def
  set mu := if mb ≤ 0 then (10 : Int) else mb with hmu_def
  have hc1 : 1 ≤ c := by rw [hc_def]; split <;> omega
  have hc2 : c ≤ 255 := by rw [hc_def]; split <;> omega
  have hm1 : 1 ≤ mu := by rw [hmu_def]; split <;> omega
  have hm2 : mu ≤ 255 := by rw [hmu_def]; split <;> omega
  clear_value c mu
  rcases (by omega : mu / 100 = 0 ∨ mu / 100 = 1 ∨ mu / 100 = 2) with h | h | h <;>
    rw [h] <;> split_ifs <;> omega

theorem digest_getD_lt (msg : List Nat) (i : Nat) (h : i < 32) :
    (Sha256.digest msg).getD i 0 < 256 := by
  have hlen := digest_length msg
  have hmem : (Sha256.digest msg).getD i 0 ∈ Sha256.digest msg := by
    rw [List.getD_eq_getElem _ _ (by omega)]
    exact List.getElem_mem _
  exact digest_byte_lt hmem

theorem Mnstr.coins_eq_bytes (m : Mnstr) :
    m.coins = coinsFromBytes
      (((Sha256.digest (Sha256.strBytes m.mnstr_qr_code)).getD 15 0 : Nat) : Int)
      (((Sha256.digest (Sha256.strBytes m.mnstr_qr_code)).getD 16 0 : Nat) : Int) := by
  unfold Mnstr.coins
  dsimp only
  rw [digest_length]

/-- C1: for every monster, `Mnstr::coins` is a pure deterministic
function of the monster's `mnstr_qr_code` string alone — any two
monsters with equal QR strings yield equal coin values on every call —
and the returned value always lies in the inclusive range `[5, 2000]`. -/
theorem C1_coins_deterministic_and_bounded (m1 m2 : Mnstr)
    (hqr : m1.mnstr_qr_code = m2.mnstr_qr_code) :
    m1.coins = m2.coins ∧ 5 ≤ m1.coins ∧ m1.coins ≤ 2000 := by
  constructor
  · unfold Mnstr.coins
    rw [hqr]
  · rw [Mnstr.coins_eq_bytes]
    have h15 := digest_getD_lt (Sha256.strBytes m1.mnstr_qr_code) 15 (by omega)
    have h16 := digest_getD_lt (Sha256.strBytes m1.mnstr_qr_code) 16 (by omega)
    exact coinsFromBytes_range (Int.natCast_nonneg _)
      (by exact_mod_cast Nat.lt_succ_iff.mp h15)
      (Int.natCast_nonneg _)
      (by exact_mod_cast Nat.lt_succ_iff.mp h16)

theorem C1_witness :
    mnstrGolden.coins = mnstrGoldenTwin.coins ∧
    5 ≤ mnstrGolden.coins ∧ mnstrGolden.coins ≤ 2000 :=
  C1_coins_deterministic_and_bounded mnstrGolden mnstrGoldenTwin rfl

/-- C2: for every settlement that reaches reward computation (loser
monster level within the table), the computed amounts are exactly
`xpToNextLevel = ProgressionTable[loserMonster.current_level + 1]` on
the monster table, `winnerXp = floor(xpToNextLevel / 4)`,
`loserXp = floor(xpToNextLevel / 8)`, `winnerCoins` the coin valuation
of the loser's monster, and `loserCoins = 5`. -/
theorem C2_settlement_rewards (m : Mnstr) (h0 : 0 ≤ m.current_level)
    (h99 : m.current_level ≤ 99) :
    handle_game_ended_rewards m = some (specGameEndRewards m) := by
  unfold handle_game_ended_rewards specGameEndRewards
  rw [if_pos ⟨h0, by rw [mnstr_xp_length]; omega⟩]

theorem C2_witness :
    handle_game_ended_rewards mnstrLvl0 = some (specGameEndRewards mnstrLvl0) :=
  C2_settlement_rewards mnstrLvl0 (by decide) (by decide)

/-- C3 counterexample: the claim computes the roll bonus as
`floor(attacker.speed / 20)`; the code divides with Rust `i32`
truncation toward zero.  With an attacker at speed `-5` (reachable,
since fatigue decrements speed every turn with no floor) and dice 6 and
5, the code registers a hit, while the claim's rolls are
`6 + floor(-5/20) = 5` against `5 + 0 = 5`, a miss under the claim's
strict comparison. -/
theorem C3_counterexample :
    (handle_attack_core c3Challenger c3Opponent "u-c3d" 6 5).hit = true ∧
    ¬ (6 + Int.fdiv c3Challenger.current_speed 20 >
        5 + Int.fdiv c3Opponent.current_intelligence 20) := by decide

/-- C3 (amended): in every attack resolution, with
`attackerRoll = die1 + trunc(attacker.speed / 20)` and
`defenderRoll = die2 + trunc(defender.intelligence / 20)` (truncating
`i32` division, equal to floor when the stat is non-negative) and dice
in `1..=20`, the attack hits iff `attackerRoll > defenderRoll` strictly;
on a hit the damage equals `attackerRoll` and the defender's health is
set to 0 when the damage exceeds the defender's defense, otherwise
reduced by the damage; on a miss the roll resolution leaves the
defender entirely unchanged. -/
theorem C3_attack_resolution (challenger opponent : Mnstr) (turn : String)
    (d1 d2 : Int) (hd1 : 1 ≤ d1 ∧ d1 ≤ 20) (hd2 : 1 ≤ d2 ∧ d2 ≤ 20)
    (atk dfn : Mnstr)
    (hsel : selectCombatants challenger opponent turn = (atk, dfn))
    (ar dr : Int) (har : ar = d1 + Int.tdiv atk.current_speed 20)
    (hdr : dr = d2 + Int.tdiv dfn.current_intelligence 20) :
    ((handle_attack_core challenger opponent turn d1 d2).hit = true ↔ ar > dr) ∧
    (ar > dr →
      (handle_attack_core challenger opponent turn d1 d2).damage = some ar ∧
      (handle_attack_core challenger opponent turn d1 d2).defender.current_health =
        (if ar > dfn.current_defense then 0 else dfn.current_health - ar)) ∧
    (¬ ar > dr → resolveAttack dfn ar dr = ⟨dfn, false, none⟩) := by
  subst har hdr
  unfold handle_attack_core resolveAttack applyFatigue
  rw [hsel]
  by_cases h : d1 + Int.tdiv atk.current_speed 20 >
      d2 + Int.tdiv dfn.current_intelligence 20
  · simp only [h, if_pos]
    by_cases h2 : d1 + Int.tdiv atk.current_speed 20 > dfn.current_defense <;>
      simp [h, h2]
  · simp [h]

theorem C3_witness :
    ((handle_attack_core c3Challenger c3Opponent "u-c3d" 6 5).hit = true ↔
      6 + Int.tdiv c3Challenger.current_speed 20 >
        5 + Int.tdiv c3Opponent.current_intelligence 20) ∧
    (6 + Int.tdiv c3Challenger.current_speed 20 >
        5 + Int.tdiv c3Opponent.current_intelligence 20 →
      (handle_attack_core c3Challenger c3Opponent "u-c3d" 6 5).damage =
        some (6 + Int.tdiv c3Challenger.current_speed 20) ∧
      (handle_attack_core c3Challenger c3Opponent "u-c3d" 6 5).defender.current_health =
        (if 6 + Int.tdiv c3Challenger.current_speed 20 > c3Opponent.current_defense
          then 0 else c3Opponent.current_health -
            (6 + Int.tdiv c3Challenger.current_speed 20))) ∧
    (¬ 6 + Int.tdiv c3Challenger.current_speed 20 >
        5 + Int.tdiv c3Opponent.current_intelligence 20 →
      resolveAttack c3Opponent (6 + Int.tdiv c3Challenger.current_speed 20)
        (5 + Int.tdiv c3Opponent.current_intelligence 20) =
        ⟨c3Opponent, false, none⟩) :=
  C3_attack_resolution c3Challenger c3Opponent "u-c3d" 6 5 (by decide) (by decide)
    c3Challenger c3Opponent (by decide) _ _ rfl rfl

/-- C4: for every attack resolution where `turnUserId` equals exactly
one combatant's owner id, the defender is the combatant owning
`turnUserId` and the attacker is the combatant that does not (the turn
holder defends, not attacks). -/
theorem C4_turn_holder_defends (challenger opponent : Mnstr) (turn : String)
    (howner : turn = challenger.user_id ∨ turn = opponent.user_id)
    (hne : challenger.user_id ≠ opponent.user_id) :
    (selectCombatants challenger opponent turn).2.user_id = turn ∧
    (selectCombatants challenger opponent turn).1.user_id ≠ turn := by
  unfold selectCombatants
  rcases howner with h | h
  · have hc : (turn == challenger.user_id) = true := by simp [h]
    simp [hc]
    exact ⟨h.symm, by rw [h]; exact fun hcontra => hne hcontra.symm⟩
  · have hc : (turn == challenger.user_id) = false := by
      simp only [beq_eq_false_iff_ne, ne_eq, h]
      exact fun hcontra => hne hcontra.symm
    simp [hc]
    exact ⟨h.symm, by rw [h]; exact hne⟩

theorem C4_witness :
    (selectCombatants c4Challenger c4Opponent "u-c4a").2.user_id = "u-c4a" ∧
    (selectCombatants c4Challenger c4Opponent "u-c4a").1.user_id ≠ "u-c4a" :=
  C4_turn_holder_defends c4Challenger c4Opponent "u-c4a" (Or.inl rfl) (by decide)

/-- C5 counterexample: a hit whose damage (10) does not exceed the
defender's defense (30) drives health from 5 to `-5`, and exactly this
state is what `defender.update()` persists — no clamp to 0 happens
before persisting. -/
theorem C5_counterexample :
    (handle_attack_core c5Challenger c5Opponent "u-c5d" 10 1).defender.current_health
      < 0 := by decide

/-- C5 (amended): the defender health that combat operations persist is
set to 0 exactly on an instant-kill hit (damage exceeding defense); any
other hit subtracts the damage with no lower clamp, so the persisted
snapshot's health may be negative; a miss leaves health unchanged. -/
theorem C5_health_update_rule (challenger opponent : Mnstr) (turn : String)
    (d1 d2 : Int) (atk dfn : Mnstr)
    (hsel : selectCombatants challenger opponent turn = (atk, dfn))
    (ar dr : Int) (har : ar = d1 + Int.tdiv atk.current_speed 20)
    (hdr : dr = d2 + Int.tdiv dfn.current_intelligence 20) :
    (ar > dr → ar > dfn.current_defense →
      (handle_attack_core challenger opponent turn d1 d2).defender.current_health = 0) ∧
    (ar > dr → ¬ ar > dfn.current_defense →
      (handle_attack_core challenger opponent turn d1 d2).defender.current_health =
        dfn.current_health - ar) ∧
    (¬ ar > dr →
      (handle_attack_core challenger opponent turn d1 d2).defender.current_health =
        dfn.current_health) := by
  subst har hdr
  unfold handle_attack_core resolveAttack applyFatigue
  rw [hsel]
  by_cases h : d1 + Int.tdiv atk.current_speed 20 >
      d2 + Int.tdiv dfn.current_intelligence 20
  · by_cases h2 : d1 + Int.tdiv atk.current_speed 20 > dfn.current_defense <;>
      simp [h, h2]
  · simp [h]

theorem C5_witness :
    ((10 : Int) + Int.tdiv c5Opponent.current_speed 20 >
        1 + Int.tdiv c5Challenger.current_intelligence 20 →
      10 + Int.tdiv c5Opponent.current_speed 20 > c5Challenger.current_defense →
      (handle_attack_core c5Challenger c5Opponent "u-c5d" 10 1).defender.current_health
        = 0) ∧
    ((10 : Int) + Int.tdiv c5Opponent.current_speed 20 >
        1 + Int.tdiv c5Challenger.current_intelligence 20 →
      ¬ 10 + Int.tdiv c5Opponent.current_speed 20 > c5Challenger.current_defense →
      (handle_attack_core c5Challenger c5Opponent "u-c5d" 10 1).defender.current_health
        = c5Challenger.current_health - (10 + Int.tdiv c5Opponent.current_speed 20)) ∧
    (¬ (10 : Int) + Int.tdiv c5Opponent.current_speed 20 >
        1 + Int.tdiv c5Challenger.current_intelligence 20 →
      (handle_attack_core c5Challenger c5Opponent "u-c5d" 10 1).defender.current_health
        = c5Challenger.current_health) :=
  C5_health_update_rule c5Challenger c5Opponent "u-c5d" 10 1 c5Opponent c5Challenger
    (by decide) _ _ rfl rfl

theorem handle_list_request_records_eq (requester : String) (all : List BattleStatus) :
    handle_list_request_records requester all =
      (all.filter (fun item => item.user_id ≠ requester)).foldl dedupStep [] := rfl

theorem dedupFold_mem {l acc : List BattleStatus} {x : BattleStatus}
    (hx : x ∈ l.foldl dedupStep acc) : x ∈ acc ∨ x ∈ l := by
  induction l generalizing acc with
  | nil => simp only [List.foldl_nil] at hx; exact Or.inl hx
  | cons a tl ih =>
    rw [List.foldl_cons] at hx
    rcases ih hx with h | h
    · unfold dedupStep at h
      split at h
      · rcases List.mem_append.mp h with h2 | h2
        · exact Or.inl h2
        · simp only [List.mem_singleton] at h2
          subst h2
          exact Or.inr (List.mem_cons_self _ _)
      · exact Or.inl h
    · exact Or.inr (List.mem_cons_of_mem _ h)

theorem dedupFold_acc_subset {l acc : List BattleStatus} {x : BattleStatus}
    (hx : x ∈ acc) : x ∈ l.foldl dedupStep acc := by
  induction l generalizing acc with
  | nil => simpa using hx
  | cons a tl ih =>
    rw [List.foldl_cons]
    apply ih
    unfold dedupStep
    split
    · exact List.mem_append_left _ hx
    · exact hx

theorem dedupFold_pairwise {l acc : List BattleStatus}
    (hacc : acc.Pairwise (fun a b => a.user_id ≠ b.user_id)) :
    (l.foldl dedupStep acc).Pairwise (fun a b => a.user_id ≠ b.user_id) := by
  induction l generalizing acc with
  | nil => simpa using hacc
  | cons a tl ih =>
    rw [List.foldl_cons]
    apply ih
    unfold dedupStep
    split
    · next hany =>
      rw [List.pairwise_append]
      refine ⟨hacc, List.pairwise_singleton _ _, ?_⟩
      intro x hxacc y hy
      simp only [List.mem_singleton] at hy
      subst hy
      simp only [Bool.not_eq_true', List.any_eq_false] at hany
      have := hany x hxacc
      simpa using this
    · exact hacc

theorem dedupStep_mem_acc {acc : List BattleStatus} {a y : BattleStatus}
    (hy : y ∈ acc) : y ∈ dedupStep acc a := by
  unfold dedupStep
  split
  · exact List.mem_append_left _ hy
  · exact hy

theorem dedupFold_covers {l acc : List BattleStatus} (u : String)
    (h : (∃ y ∈ acc, y.user_id = u) ∨ ∃ x ∈ l, x.user_id = u) :
    ∃ y ∈ l.foldl dedupStep acc, y.user_id = u := by
  induction l generalizing acc with
  | nil =>
    rcases h with ⟨y, hy, hyu⟩ | ⟨x, hx, _⟩
    · exact ⟨y, by simpa using hy, hyu⟩
    · simp at hx
  | cons a tl ih =>
    rw [List.foldl_cons]
    rcases h with ⟨y, hy, hyu⟩ | ⟨x, hx, hxu⟩
    · exact ih (Or.inl ⟨y, dedupStep_mem_acc hy, hyu⟩)
    · rcases List.mem_cons.mp hx with h1 | h1
      · subst h1
        by_cases hany : (acc.any (fun z => z.user_id == x.user_id)) = true
        · simp only [List.any_eq_true] at hany
          obtain ⟨z, hz, hzu⟩ := hany
          refine ih (Or.inl ⟨z, dedupStep_mem_acc hz, ?_⟩)
          rw [← hxu]
          simpa using hzu
        · refine ih (Or.inl ⟨x, ?_, hxu⟩)
          unfold dedupStep
          rw [Bool.not_eq_true] at hany
          simp only [hany, Bool.not_false, if_true]
          exact List.mem_append_right _ (List.mem_singleton_self _)
      · exact ih (Or.inr ⟨x, h1, hxu⟩)

/-- C6 counterexample: `handle_list_request` builds its list from
`BattleStatus::find_all()`, which queries with no status filter, so a
presence record whose status is `InBattle` (not `InQueue`) is returned
to the requester. -/
theorem C6_counterexample :
    bsInBattle ∈ handle_list_request_records "user-a" [bsInBattle] ∧
    bsInBattle.status ≠ BattleStatusState.InQueue := by decide

/-- C6 (amended): for every `List` request, the returned records are
drawn from all presence records regardless of status — every returned
record belongs to the store's list and is not the requester's, there is
at most one record per `userId` (first occurrence kept), and every
non-requester `userId` present in the store appears in the answer.
The `InQueue`-only restriction of the original claim does not hold. -/
theorem C6_list_excludes_requester_and_dedups (requester : String)
    (all : List BattleStatus) :
    (∀ x ∈ handle_list_request_records requester all,
        x.user_id ≠ requester ∧ x ∈ all) ∧
    (handle_list_request_records requester all).Pairwise
        (fun a b => a.user_id ≠ b.user_id) ∧
    (∀ x ∈ all, x.user_id ≠ requester →
      ∃ y ∈ handle_list_request_records requester all,
        y.user_id = x.user_id) := by
  rw [handle_list_request_records_eq]
  refine ⟨?_, ?_, ?_⟩
  · intro x hx
    rcases dedupFold_mem hx with h | h
    · simp at h
    · have := List.mem_filter.mp h
      refine ⟨by simpa using this.2, this.1⟩
  · exact dedupFold_pairwise List.Pairwise.nil
  · intro x hx hxr
    apply dedupFold_covers
    refine Or.inr ⟨x, ?_, rfl⟩
    exact List.mem_filter.mpr ⟨hx, by simpa using hxr⟩

theorem C6_witness :
    (∀ x ∈ handle_list_request_records "user-a" [bsInBattle],
        x.user_id ≠ "user-a" ∧ x ∈ [bsInBattle]) ∧
    (handle_list_request_records "user-a" [bsInBattle]).Pairwise
        (fun a b => a.user_id ≠ b.user_id) ∧
    (∀ x ∈ [bsInBattle], x.user_id ≠ "user-a" →
      ∃ y ∈ handle_list_request_records "user-a" [bsInBattle],
        y.user_id = x.user_id) :=
  C6_list_excludes_requester_and_dedups "user-a" [bsInBattle]

theorem update_xp_loop_level_mono :
    ∀ (fuel : Nat) (rem t : Int) (u : User) (res : User × Int),
      update_xp_loop fuel rem t u = some res →
      u.experience_level ≤ res.1.experience_level := by
  intro fuel
  induction fuel with
  | zero =>
    intro rem t u res h
    simp [update_xp_loop] at h
  | succ n ih =>
    intro rem t u res h
    rw [update_xp_loop] at h
    split at h
    · rw [Option.some_inj] at h
      rw [← h]
    · dsimp only at h
      cases h1 : level_xp_get (u.experience_level + 1 + 1) with
      | none => rw [h1] at h; exact absurd h (by simp)
      | some t1 =>
        rw [h1] at h
        simp only [h1] at h
        split at h
        · next h2 =>
          have := ih _ _ _ _ h
          simp at this
          omega
        · next h2 =>
          have := ih _ _ _ _ h
          simp at this
          omega

theorem update_xp_loop_exit (fuel : Nat) (rem t : Int) (u : User)
    (hrem : rem < 0) : update_xp_loop (fuel + 1) rem t u = some (u, t) := by
  rw [update_xp_loop, if_pos hrem]

set_option maxRecDepth 100000 in
/-- C7 counterexample: a user with stored `experience_points` already at
the next-level threshold (`XP_FOR_LEVEL[1] = 100`) gains a level and has
points reset to 0 by `update_xp(0)`, so applying exactly 0 XP is not a
no-op on level/points for every user state. -/
theorem C7_counterexample :
    (User.update_xp userAtThreshold 0).map
        (fun u => (u.experience_level, u.experience_points)) = some (1, 0) ∧
    (userAtThreshold.experience_level, userAtThreshold.experience_points)
      = (0, 100) := by decide

/-- C7 (amended): applying XP through `User::update_xp` never decreases
`experience_level` (for any amount, in particular any `N ≥ 0`); and
applying exactly 0 XP leaves both `experience_level` and
`experience_points` unchanged provided the state's points are strictly
below its xp-to-next-level threshold (the invariant every
`update_xp`-produced state satisfies); for states at or above the
threshold, 0 XP triggers a level-up instead. -/
theorem C7_xp_level_monotone_and_guarded_noop (u : User) (xp : Int)
    (hxp : 0 ≤ xp) :
    (∀ u', User.update_xp u xp = some u' →
        u.experience_level ≤ u'.experience_level) ∧
    (xp = 0 → ∀ t, user_xp_to_next_level u = some t →
      u.experience_points < t →
      ∃ u', User.update_xp u 0 = some u' ∧
        u'.experience_level = u.experience_level ∧
        u'.experience_points = u.experience_points) := by
  constructor
  · intro u' h
    unfold User.update_xp at h
    dsimp only at h
    split at h
    · exact absurd h (by simp)
    · split at h
      · exact absurd h (by simp)
      · next p hLoop =>
        rw [Option.some_inj] at h
        have hmono := update_xp_loop_level_mono _ _ _ _ _ hLoop
        rw [← h]
        simpa using hmono
  · intro hxp0 t ht hlt
    subst hxp0
    unfold User.update_xp
    dsimp only
    have hmatch : user_xp_to_next_level
        { u with experience_points := u.experience_points + 0 } = some t := by
      unfold user_xp_to_next_level level_xp_get at ht ⊢
      simpa using ht
    rw [hmatch]
    dsimp only
    rw [show (102 : Nat) = 101 + 1 from rfl,
      update_xp_loop_exit 101 _ _ _ (by omega)]
    exact ⟨_, rfl, by simp, by simp⟩

set_option maxRecDepth 100000 in
theorem C7_witness :
    (∀ u', User.update_xp userFresh 0 = some u' →
        userFresh.experience_level ≤ u'.experience_level) ∧
    ((0 : Int) = 0 → ∀ t, user_xp_to_next_level userFresh = some t →
      userFresh.experience_points < t →
      ∃ u', User.update_xp userFresh 0 = some u' ∧
        u'.experience_level = userFresh.experience_level ∧
        u'.experience_points = userFresh.experience_points) :=
  C7_xp_level_monotone_and_guarded_noop userFresh 0 (by decide)

/-- C8: both precomputed 101-entry progression tables (player XP and
monster XP) are strictly increasing: for every level `L ≤ 99`,
`XP_FOR_LEVEL[L] < XP_FOR_LEVEL[L+1]` holds in each table as generated
by the build-time growth rules. -/
theorem C8_tables_strictly_increasing (L : Nat) (hL : L ≤ 99) :
    level_xp.XP_FOR_LEVEL.getD L 0 < level_xp.XP_FOR_LEVEL.getD (L + 1) 0 ∧
    mnstr_xp.XP_FOR_LEVEL.getD L 0 < mnstr_xp.XP_FOR_LEVEL.getD (L + 1) 0 ∧
    level_xp.XP_FOR_LEVEL.length = 101 ∧
    mnstr_xp.XP_FOR_LEVEL.length = 101 :=
  ⟨level_xp_strict L (by rw [level_xp_length]; omega),
   mnstr_xp_strict L (by rw [mnstr_xp_length]; omega),
   level_xp_length, mnstr_xp_length⟩

theorem C8_witness :
    level_xp.XP_FOR_LEVEL.getD 0 0 < level_xp.XP_FOR_LEVEL.getD 1 0 ∧
    mnstr_xp.XP_FOR_LEVEL.getD 0 0 < mnstr_xp.XP_FOR_LEVEL.getD 1 0 ∧
    level_xp.XP_FOR_LEVEL.length = 101 ∧
    mnstr_xp.XP_FOR_LEVEL.length = 101 :=
  C8_tables_strictly_increasing 0 (by decide)

/-- C9 counterexample: a well-formed `Attack` envelope with no nested
game data makes the handler panic on `unwrap()` (line 977) instead of
running forced-leave cleanup; and a text frame that is not a valid
envelope yields a published `"Invalid message"` error envelope, not
forced-leave cleanup. -/
theorem C9_counterexample :
    handle_client_message (.envelope attackNoData) = .panicked ∧
    handle_client_message .unparsableText ≠ .forcedLeave := by decide

/-- C9 (amended): a transport-level error or an empty frame triggers
forced-leave cleanup (presence deletion plus `Left` broadcast); a text
frame that does not parse as an envelope leads to a published `Error`
envelope with neither cleanup nor crash; and a parsed envelope whose
data action requires a nested `GameData` payload (`MnstrChosen`,
`Rejoin`, `Escape`, `Attack`) panics on `unwrap` when that payload is
missing or unparsable. -/
theorem C9_malformed_message_behavior :
    handle_client_message .transportError = .forcedLeave ∧
    handle_client_message .emptyText = .forcedLeave ∧
    handle_client_message .unparsableText = .publishedError ∧
    (∀ q : BattleQueue, requiresGameData q.data.action = true →
      (q.data.data = none ∨ q.data.data = some .malformed) →
      handle_client_message (.envelope q) = .panicked) := by
  refine ⟨rfl, rfl, rfl, ?_⟩
  intro q hreq hdata
  show dispatchEnvelope q = .panicked
  unfold dispatchEnvelope
  cases hact : q.data.action <;> rw [hact] at hreq <;>
    simp only [requiresGameData] at hreq <;>
    try (exact absurd hreq (by decide))
  all_goals rcases hdata with h | h <;> rw [h]

theorem C9_witness :
    handle_client_message (.envelope escapeBadData) = .panicked :=
  C9_malformed_message_behavior.2.2.2 escapeBadData (by decide) (Or.inr rfl)

/-- C10: end-of-game settlement is total only for loser monster levels
at most 99: `handle_game_ended` indexes the 101-entry monster XP table
at `current_level + 1`, in bounds for every level `≤ 99`, while a loser
monster at level 100 (the table's last index) makes the settlement
panic on an out-of-bounds index (`none` in the embedding) instead of
returning an `Error` envelope. -/
theorem C10_settlement_total_iff_level_le_99 (m : Mnstr)
    (h0 : 0 ≤ m.current_level) :
    (m.current_level ≤ 99 → (handle_game_ended_rewards m).isSome = true) ∧
    (m.current_level = 100 → handle_game_ended_rewards m = none) ∧
    mnstr_xp.XP_FOR_LEVEL.length = 101 := by
  refine ⟨?_, ?_, mnstr_xp_length⟩
  · intro h99
    unfold handle_game_ended_rewards
    rw [if_pos ⟨h0, by rw [mnstr_xp_length]; omega⟩]
    rfl
  · intro h100
    unfold handle_game_ended_rewards
    rw [if_neg]
    intro hcond
    rw [mnstr_xp_length] at hcond
    omega

theorem C10_witness :
    (mnstrLvl100.current_level ≤ 99 →
      (handle_game_ended_rewards mnstrLvl100).isSome = true) ∧
    (mnstrLvl100.current_level = 100 →
      handle_game_ended_rewards mnstrLvl100 = none) ∧
    mnstr_xp.XP_FOR_LEVEL.length = 101 :=
  C10_settlement_total_iff_level_le_99 mnstrLvl100 (by decide)

set_option maxRecDepth 100000 in
/-- Sanity anchor: the embedded SHA-256 reproduces the FIPS 180-4 test
vector for `"abc"` (digest `ba7816bf 8f01cfea ...`). -/
theorem sha256_vector_abc :
    Sha256.digest (Sha256.strBytes "abc") =
      [186, 120, 22, 191, 143, 1, 207, 234, 65, 65, 64, 222, 93, 174, 34, 35,
       176, 3, 97, 163, 150, 23, 122, 156, 180, 16, 255, 97, 242, 0, 21, 173] := by
  decide

set_option maxRecDepth 100000 in
/-- Sanity anchor: the pinned golden coin value for the spec §8 QR string
`"ABC123"` (digest bytes 15 and 16 are 41 and 25; the low tier with a
multiplier below 85 keeps the 41 coins, divides by 10 past 25, and the
final floor raises 4 to 5). -/
theorem coins_golden_qr : mnstrGolden.coins = 5 := by decide
